import Mathlib

/-!
# Shallow embedding of the radar visualizer core (`src/main.rs`)

This file embeds the per-frame core of the radar visualizer: the telemetry
decoder (serial read block), the polar-to-screen geometry, the persistence
canvas fade, the sweep/detection draw pass, the viewport/canvas resize logic
and the final composite, and proves the specification's claims about them.

Modelling conventions:
* Rust `f32` values carried by the program state are idealized as exact
  rationals extended with the IEEE special values (`F32` below); `f32`
  trigonometry is idealized over `ℝ`.
* Rust `String` line input is modelled as `List Char`, with structurally
  recursive `trim`/`split` mirroring `str::trim` / `str::split(',')`.
* The raylib draw calls issued to the persistence texture in one frame are
  recorded, in program order, as a `List CanvasOp`.
-/

namespace Radar

/-! ## Configuration constants (`main.rs` lines 7-19) -/

def SCREEN_WIDTH : ℤ := 1200

def SCREEN_HEIGHT : ℤ := 700

def MAX_RANGE_CM : ℚ := 40

/-- An 8-bit-per-channel RGBA color, as built by `Color::new(r, g, b, a)`. -/
structure Color where
  r : ℕ
  g : ℕ
  b : ℕ
  a : ℕ
deriving DecidableEq, Repr

def BACKGROUND_COLOR : Color := ⟨10, 15, 10, 255⟩

def FADE_ANIMATION_COLOR : Color := ⟨0, 10, 0, 18⟩

def RADAR_OUTLINE : Color := ⟨30, 120, 50, 255⟩

def DETECTED_OBJECT : Color := ⟨255, 60, 60, 255⟩

def SWEEP_LINE_COLOR : Color := ⟨150, 255, 170, 255⟩

def SWEEP_LINE_THICKNESS : ℚ := 4

def SWEEP_SPREAD_DEG : ℚ := 3

def SWEEP_STEP_DEG : ℚ := 3 / 10

/-! ## Idealized `f32` values and `f32::from_str` -/

/-- An `f32` value as held by the program state: an exact rational for the
finite values, plus the IEEE special values produced by parsing. -/
inductive F32 where
  | finite (val : ℚ)
  | inf
  | neginf
  | nan
deriving DecidableEq, Repr

/-- IEEE `<` on idealized `f32`: any comparison involving NaN is false. -/
def F32.lt : F32 → F32 → Bool
  | .nan, _ => false
  | _, .nan => false
  | .finite a, .finite b => decide (a < b)
  | .finite _, .inf => true
  | .inf, _ => false
  | .neginf, .neginf => false
  | .neginf, _ => true
  | _, .neginf => false

/-- ASCII whitespace recognised by the line trim. -/
def isWS (c : Char) : Bool := c = ' ' || c = '\t' || c = '\n' || c = '\r'

/-- `str::trim`: drop whitespace from both ends of the line. -/
def trimChars (s : List Char) : List Char :=
  ((s.dropWhile isWS).reverse.dropWhile isWS).reverse

/-- Worker for `splitComma`, accumulating the current field in reverse. -/
def splitCommaAux : List Char → List Char → List (List Char)
  | [], acc => [acc.reverse]
  | c :: cs, acc =>
    if c = ',' then acc.reverse :: splitCommaAux cs [] else splitCommaAux cs (c :: acc)

/-- `str::split(',')`: always yields at least one (possibly empty) field. -/
def splitComma (s : List Char) : List (List Char) := splitCommaAux s []

/-- Numeric value of a digit string, most significant digit first. -/
def digitsVal (ds : List Char) : ℕ := ds.foldl (fun acc c => acc * 10 + (c.toNat - 48)) 0

/-- Split off the leading run of decimal digits. -/
def takeDigits (s : List Char) : List Char × List Char :=
  (s.takeWhile Char.isDigit, s.dropWhile Char.isDigit)

/-- Strip an optional leading sign from a float field; `true` means negative. -/
def splitSign (s : List Char) : Bool × List Char :=
  match s with
  | [] => (false, [])
  | c :: r => if c = '+' then (false, r) else if c = '-' then (true, r) else (false, c :: r)

/-- Strip an optional leading sign from an exponent, as a `±1` factor. -/
def splitExpSign (s : List Char) : ℤ × List Char :=
  match s with
  | [] => (1, [])
  | c :: r => if c = '+' then (1, r) else if c = '-' then (-1, r) else (1, c :: r)

/-- Parse the optional exponent suffix of a float literal: either nothing, or
`e`/`E`, an optional sign, and one or more digits consuming the rest. -/
def parseExp : List Char → Option ℤ
  | [] => some 0
  | c :: rest =>
    if c = 'e' ∨ c = 'E' then
      let sr := splitExpSign rest
      let ds := takeDigits sr.2
      if ds.1 ≠ [] ∧ ds.2 = [] then some (sr.1 * digitsVal ds.1) else none
    else none

/-- Does the remainder start with a decimal point? -/
def hasDotHead : List Char → Bool
  | [] => false
  | c :: _ => c = '.'

/-- Parse an unsigned decimal float literal (`digits`, optional `.` and more
digits — at least one digit in total — then an optional exponent) to its exact
rational value. -/
def parseDecimal (s : List Char) : Option ℚ :=
  let ip := takeDigits s
  if hasDotHead ip.2 then
    let fp := takeDigits ip.2.tail
    if ip.1 = [] ∧ fp.1 = [] then none
    else
      match parseExp fp.2 with
      | some e =>
        some (((digitsVal ip.1 : ℚ) + (digitsVal fp.1 : ℚ) / 10 ^ fp.1.length) * (10 : ℚ) ^ e)
      | none => none
  else
    if ip.1 = [] then none
    else
      match parseExp ip.2 with
      | some e => some ((digitsVal ip.1 : ℚ) * (10 : ℚ) ^ e)
      | none => none

/-- Lower-case a field for the case-insensitive special values. -/
def toLowerChars (s : List Char) : List Char := s.map Char.toLower

/-- Rust `f32::from_str`, idealized to exact rationals: an optional sign, then
case-insensitively `inf`/`infinity`/`nan`, or a decimal number. Anything else
(empty field, stray characters, whitespace inside a field) fails. -/
def parseF32 (s : List Char) : Option F32 :=
  if s = [] then none
  else
    let sr := splitSign s
    let low := toLowerChars sr.2
    if low = ['i', 'n', 'f'] ∨ low = ['i', 'n', 'f', 'i', 'n', 'i', 't', 'y'] then
      some (if sr.1 then F32.neginf else F32.inf)
    else if low = ['n', 'a', 'n'] then some F32.nan
    else
      match parseDecimal sr.2 with
      | some q => some (F32.finite (if sr.1 then -q else q))
      | none => none

/-! ## Mutable frame-loop state (`main.rs` lines 87-101) -/

/-- The mutable locals of the main loop: the held telemetry reading
(`i_angle`, `i_distance`), the shader toggle, the "data ever received" flag,
and the current dimensions of the persistence render texture (`target`). -/
structure AppState where
  i_angle : F32
  i_distance : F32
  use_shader : Bool
  data_received : Bool
  canvasW : ℤ
  canvasH : ℤ
deriving DecidableEq, Repr

/-- State right before the first loop iteration: texture freshly created at
1200×700 and cleared, angle/distance zero, shader on, no data received. -/
def initState : AppState :=
  { i_angle := F32.finite 0, i_distance := F32.finite 0, use_shader := true,
    data_received := false, canvasW := SCREEN_WIDTH, canvasH := SCREEN_HEIGHT }

/-- The serial read block (lines 139-151): trim the line, split on `,`,
require exactly two fields, parse both as `f32`; on success overwrite the held
angle/distance and set `data_received`; on any failure leave the state
untouched. `none` models a frame where no line was available (timeout or read
error). -/
def readSerial (s : AppState) (line : Option (List Char)) : AppState :=
  match line with
  | none => s
  | some l =>
    match splitComma (trimChars l) with
    | [p0, p1] =>
      match parseF32 p0, parseF32 p1 with
      | some a, some d =>
        { s with i_angle := a, i_distance := d, data_received := true }
      | _, _ => s
    | _ => s

/-! ## One iteration of the main loop (`main.rs` lines 103-151) -/

/-- The per-frame external inputs: key presses, the resize event flag, the
screen dimensions reported by `get_screen_width/height` this frame (after any
fullscreen toggle), and the serial line available this frame, if any. -/
structure FrameInput where
  sPressed : Bool
  fPressed : Bool
  resized : Bool
  screenW : ℤ
  screenH : ℤ
  line : Option (List Char)

/-- Whether this frame re-creates (and clears) the render texture: a resize
event or the fullscreen key (line 109). -/
def recreatesCanvas (inp : FrameInput) : Bool := inp.resized || inp.fPressed

/-- The state mutations of one loop iteration, in source order: `S` toggles
the shader (105-107); a resize event or `F` re-creates the canvas at the
current screen size (109-127); the serial read updates telemetry (139-151). -/
def frameUpdate (s : AppState) (inp : FrameInput) : AppState :=
  let s1 := if inp.sPressed then { s with use_shader := !s.use_shader } else s
  let s2 :=
    if recreatesCanvas inp then { s1 with canvasW := inp.screenW, canvasH := inp.screenH }
    else s1
  readSerial s2 inp.line

/-- Run the main loop over a list of per-frame inputs. -/
def runFrames (s : AppState) (inps : List FrameInput) : AppState := inps.foldl frameUpdate s

/-! ## Polar-to-screen geometry (`main.rs` lines 129-136, 209-239) -/

/-- A screen-space point, as raylib's `Vector2`, idealized over `ℝ`. -/
structure Vec2 where
  x : ℝ
  y : ℝ

/-- `center.x`: `current_sw / 2.0` (line 135). -/
noncomputable def radarCenterX (sw : ℝ) : ℝ := sw / 2

/-- `center.y`: `current_sh * 0.926` (line 135). -/
noncomputable def radarCenterY (sh : ℝ) : ℝ := sh * 0.926

/-- `radar_radius`: `current_sw * 0.5` (line 136). -/
noncomputable def radarRadius (sw : ℝ) : ℝ := sw * 0.5

/-- `f32::to_radians`: degrees times `π / 180`. -/
noncomputable def toRadians (deg : ℝ) : ℝ := deg * (Real.pi / 180)

/-- The polar-to-screen formula shared by the sweep endpoint (212-215), the
object position (231-234) and the edge position (235-238):
`(cx + r·cos a, cy − r·sin a)` with the angle in degrees. The subtracted sine
inverts screen Y, which grows downward. -/
noncomputable def polarPoint (center : Vec2) (r angleDeg : ℝ) : Vec2 :=
  ⟨center.x + r * Real.cos (toRadians angleDeg), center.y - r * Real.sin (toRadians angleDeg)⟩

/-- `sweep_end` (lines 212-215). -/
noncomputable def sweepEnd (center : Vec2) (radius angleDeg : ℝ) : Vec2 :=
  polarPoint center radius angleDeg

/-- `pixels_per_cm = radar_radius / MAX_RANGE_CM` (line 228). -/
noncomputable def pixelsPerCm (radius : ℝ) : ℝ := radius / (MAX_RANGE_CM : ℝ)

/-- `pix_dist = i_distance * pixels_per_cm` (line 229). -/
noncomputable def pixDist (radius dist : ℝ) : ℝ := dist * pixelsPerCm radius

/-- `object_pos` (lines 231-234): the sweep formula with `pix_dist` in place
of the radius. -/
noncomputable def objectPos (center : Vec2) (radius angleDeg dist : ℝ) : Vec2 :=
  polarPoint center (pixDist radius dist) angleDeg

/-- `edge_pos` (lines 235-238): the radius edge along the same angle. -/
noncomputable def edgePos (center : Vec2) (radius angleDeg : ℝ) : Vec2 :=
  polarPoint center radius angleDeg

/-! ## The canvas draw pass of one frame (`main.rs` lines 109-127, 153-242) -/

/-- The sweep fan loop (lines 209-223): starting at `-SWEEP_SPREAD_DEG`, draw
while `offset ≤ 0`, stepping by `SWEEP_STEP_DEG`. Fuel-bounded with fuel well
beyond the 11 iterations the loop performs before its guard fails. -/
def sweepOffsetsAux : ℕ → ℚ → List ℚ
  | 0, _ => []
  | n + 1, off =>
    if off ≤ 0 then off :: sweepOffsetsAux n (off + SWEEP_STEP_DEG) else []

/-- The offsets (in degrees, relative to `i_angle`) of the sweep fan lines. -/
def sweepOffsets : List ℚ := sweepOffsetsAux 64 (-SWEEP_SPREAD_DEG)

/-- `(current_sh as f32 * 0.926) as i32` (line 162): the height of the
persistence fade rectangle. The `as i32` cast truncates toward zero, which on
the nonnegative screen heights is the floor. -/
def fadeRectH (sh : ℤ) : ℤ := ⌊(sh : ℚ) * 0.926⌋

/-- The detection gate (line 227): `i_distance > 0.0 && i_distance < MAX_RANGE_CM`. -/
def detectionGate (dist : F32) : Bool :=
  F32.lt (F32.finite 0) dist && F32.lt dist (F32.finite MAX_RANGE_CM)

/-- `arc_scales` (line 167). -/
def ARC_SCALES : List ℚ := [9375 / 10000, 73 / 100, 521 / 1000, 313 / 1000]

/-- `(30..=150).step_by(30)` (line 180). -/
def MARKER_ANGLES : List ℤ := [30, 60, 90, 120, 150]

/-- One drawing command issued to the persistence texture. Coordinates are
recovered through the `polarPoint` family; here the structure and order of
what is drawn is recorded. -/
inductive CanvasOp where
  | clearBg
  | fadeOverlay (w h : ℤ)
  | arcRing (scale : ℚ)
  | angleMarker (deg : ℤ)
  | sweepSeg (offsetDeg : ℚ)
  | detectSeg
deriving DecidableEq, Repr

/-- Everything drawn into the persistence texture during one frame, in program
order, for the post-update state `s`: the one-time clear when the texture was
re-created this frame (lines 124-127), then the fade overlay (158-164), the
four arc rings (167-177), the five angle markers (180-205), and — only once
data has ever been received — the sweep fan (209-223) and, when the distance
is strictly between 0 and max range, the single detection segment (226-240). -/
def frameCanvasOps (s : AppState) (inp : FrameInput) : List CanvasOp :=
  (if recreatesCanvas inp then [CanvasOp.clearBg] else []) ++
    CanvasOp.fadeOverlay inp.screenW (fadeRectH inp.screenH) ::
      (ARC_SCALES.map CanvasOp.arcRing ++
        MARKER_ANGLES.map CanvasOp.angleMarker ++
          (if s.data_received then
            sweepOffsets.map CanvasOp.sweepSeg ++
              (if detectionGate s.i_distance then [CanvasOp.detectSeg] else [])
          else []))

/-! ## Persistence fade blending (`main.rs` lines 11-12, 157-164) -/

/-- An RGB pixel of the persistence texture, each channel an exact rational on
the 0-255 scale. -/
structure Rgb where
  r : ℚ
  g : ℚ
  b : ℚ
deriving DecidableEq, Repr

/-- The alpha of `FADE_ANIMATION_COLOR`, normalized. -/
def FADE_ALPHA : ℚ := 18 / 255

/-- Standard alpha-over blending of one source channel onto one destination
channel, with the fade overlay's alpha. -/
def fadeChannel (src dst : ℚ) : ℚ := src * FADE_ALPHA + dst * (1 - FADE_ALPHA)

/-- The effect of one frame's fade overlay on a covered pixel: each channel of
`FADE_ANIMATION_COLOR` is alpha-blended over the pixel. -/
def fadePixel (c : Rgb) : Rgb :=
  ⟨fadeChannel (FADE_ANIMATION_COLOR.r : ℚ) c.r,
    fadeChannel (FADE_ANIMATION_COLOR.g : ℚ) c.g,
    fadeChannel (FADE_ANIMATION_COLOR.b : ℚ) c.b⟩

/-- The RGB of the flat background. -/
def bgRgb : Rgb := ⟨(BACKGROUND_COLOR.r : ℚ), (BACKGROUND_COLOR.g : ℚ), (BACKGROUND_COLOR.b : ℚ)⟩

/-- The RGB of the fade overlay color. -/
def fadeRgb : Rgb :=
  ⟨(FADE_ANIMATION_COLOR.r : ℚ), (FADE_ANIMATION_COLOR.g : ℚ), (FADE_ANIMATION_COLOR.b : ℚ)⟩

/-- Whether the fade rectangle `draw_rectangle(0, 0, sw, fadeRectH sh)`
(lines 158-164) covers the canvas pixel `(x, y)`. -/
def fadeCovers (sw sh x y : ℤ) : Prop := 0 ≤ x ∧ x < sw ∧ 0 ≤ y ∧ y < fadeRectH sh

instance (sw sh x y : ℤ) : Decidable (fadeCovers sw sh x y) := by
  unfold fadeCovers; infer_instance

/-! ## Final composite (`main.rs` lines 244-277) -/

/-- A raylib `Rectangle`. -/
structure Rect where
  x : ℚ
  y : ℚ
  w : ℚ
  h : ℚ
deriving DecidableEq, Repr

/-- The one `draw_texture_pro` call of the final render: which source and
destination rectangles it uses and whether it runs inside the shader pass. -/
structure CompositeCall where
  srcRect : Rect
  destRect : Rect
  viaShader : Bool
deriving DecidableEq, Repr

/-- The final render (lines 244-277): `dest_rect` covers the whole screen,
`source_rect` selects the whole texture with negated height (inverted Y), and
the same call is made inside a shader pass iff `use_shader` is set. -/
def finalComposite (s : AppState) (sw sh texW texH : ℚ) : CompositeCall :=
  let dest_rect : Rect := ⟨0, 0, sw, sh⟩
  let source_rect : Rect := ⟨0, 0, texW, -texH⟩
  if s.use_shader then ⟨source_rect, dest_rect, true⟩
  else ⟨source_rect, dest_rect, false⟩

/-! ## Decoder lemmas -/

/-- Successful decode: exactly two fields, both parse. -/
theorem readSerial_success (s : AppState) (l p0 p1 : List Char) (a d : F32)
    (hsplit : splitComma (trimChars l) = [p0, p1])
    (ha : parseF32 p0 = some a) (hd : parseF32 p1 = some d) :
    readSerial s (some l) = { s with i_angle := a, i_distance := d, data_received := true } := by
  simp [readSerial, hsplit, ha, hd]

/-- A line that does not split into exactly two fields is discarded. -/
theorem readSerial_wrong_fields (s : AppState) (l : List Char)
    (h : (splitComma (trimChars l)).length ≠ 2) :
    readSerial s (some l) = s := by
  simp only [readSerial]
  rcases hs : splitComma (trimChars l) with _ | ⟨p, _ | ⟨q, _ | ⟨r, rest⟩⟩⟩
  · rfl
  · rfl
  · rw [hs] at h; simp at h
  · rfl

/-- A two-field line with a non-numeric field is discarded. -/
theorem readSerial_parse_fail (s : AppState) (l p0 p1 : List Char)
    (hsplit : splitComma (trimChars l) = [p0, p1])
    (h : parseF32 p0 = none ∨ parseF32 p1 = none) :
    readSerial s (some l) = s := by
  simp only [readSerial]
  rw [hsplit]
  rcases h with h | h
  · simp [h]
  · rcases hp : parseF32 p0 with _ | a <;> simp [hp, h]

/-- The serial read never touches the shader flag or the canvas size. -/
theorem readSerial_only_telemetry (s : AppState) (line : Option (List Char)) :
    (readSerial s line).use_shader = s.use_shader ∧
      (readSerial s line).canvasW = s.canvasW ∧ (readSerial s line).canvasH = s.canvasH := by
  cases line with
  | none => exact ⟨rfl, rfl, rfl⟩
  | some l =>
    simp only [readSerial]
    rcases splitComma (trimChars l) with _ | ⟨p, _ | ⟨q, _ | ⟨r, rest⟩⟩⟩
    · exact ⟨rfl, rfl, rfl⟩
    · exact ⟨rfl, rfl, rfl⟩
    · rcases hp : parseF32 p with _ | a <;> rcases hq : parseF32 q with _ | d <;>
        simp [hp, hq]
    · exact ⟨rfl, rfl, rfl⟩

/-- C1: the serial read updates the held state iff the trimmed line splits
into exactly two comma-separated fields, each parsing as a float: with no
line, a wrong field count or a non-numeric field nothing changes, while on
success both fields replace the held angle and distance; and the three-frame
scenario `"90,20"`, `"not,a,number"`, `"45,15"` yields 90/20, then an
unchanged 90/20, then 45/15. -/
theorem decode_updates_iff_two_float_fields :
    (∀ s : AppState, readSerial s none = s) ∧
    (∀ (s : AppState) (l p0 p1 : List Char) (a d : F32),
      splitComma (trimChars l) = [p0, p1] → parseF32 p0 = some a → parseF32 p1 = some d →
        readSerial s (some l) = { s with i_angle := a, i_distance := d, data_received := true }) ∧
    (∀ (s : AppState) (l : List Char),
      (splitComma (trimChars l)).length ≠ 2 ∨
          (∃ p0 p1, splitComma (trimChars l) = [p0, p1] ∧
            (parseF32 p0 = none ∨ parseF32 p1 = none)) →
        readSerial s (some l) = s) ∧
    readSerial initState (some "90,20".data) =
      ⟨F32.finite 90, F32.finite 20, true, true, 1200, 700⟩ ∧
    readSerial ⟨F32.finite 90, F32.finite 20, true, true, 1200, 700⟩
        (some "not,a,number".data) =
      ⟨F32.finite 90, F32.finite 20, true, true, 1200, 700⟩ ∧
    readSerial ⟨F32.finite 90, F32.finite 20, true, true, 1200, 700⟩ (some "45,15".data) =
      ⟨F32.finite 45, F32.finite 15, true, true, 1200, 700⟩ := by
  refine ⟨fun s => rfl, readSerial_success, ?_, ?_, ?_, ?_⟩
  · rintro s l (h | ⟨p0, p1, hsplit, h⟩)
    · exact readSerial_wrong_fields s l h
    · exact readSerial_parse_fail s l p0 p1 hsplit h
  · simp +decide [readSerial, splitComma, splitCommaAux, trimChars, isWS, parseF32, parseDecimal,
      parseExp, splitSign, splitExpSign, hasDotHead, takeDigits, digitsVal, toLowerChars,
      initState, SCREEN_WIDTH, SCREEN_HEIGHT]
  · simp +decide [readSerial, splitComma, splitCommaAux, trimChars, isWS]
  · simp +decide [readSerial, splitComma, splitCommaAux, trimChars, isWS, parseF32, parseDecimal,
      parseExp, splitSign, splitExpSign, hasDotHead, takeDigits, digitsVal, toLowerChars]

/-- Witness for C1 at a concrete input: the malformed line `"not,a,number"`
leaves the initial state untouched. -/
theorem decode_updates_iff_two_float_fields_witness :
    readSerial initState (some "not,a,number".data) = initState :=
  decode_updates_iff_two_float_fields.2.2.1 initState "not,a,number".data (Or.inl (by decide))

/-- C10: the decoder performs no range or finiteness validation: any two
parseable fields — NaN, infinities, out-of-range angles, negative distances —
replace the held angle and distance and set the data-received flag. -/
theorem decoder_accepts_any_parsed_values :
    (∀ (s : AppState) (l p0 p1 : List Char) (a d : F32),
      splitComma (trimChars l) = [p0, p1] → parseF32 p0 = some a → parseF32 p1 = some d →
        readSerial s (some l) = { s with i_angle := a, i_distance := d, data_received := true }) ∧
    parseF32 "NaN".data = some F32.nan ∧
    parseF32 "inf".data = some F32.inf ∧
    readSerial initState (some "NaN,inf".data) = ⟨F32.nan, F32.inf, true, true, 1200, 700⟩ ∧
    readSerial initState (some "270,-5".data) =
      ⟨F32.finite 270, F32.finite (-5), true, true, 1200, 700⟩ := by
  refine ⟨readSerial_success, by decide, by decide, ?_, ?_⟩
  · simp +decide [readSerial, splitComma, splitCommaAux, trimChars, isWS, parseF32,
      toLowerChars, initState, SCREEN_WIDTH, SCREEN_HEIGHT]
  · simp +decide [readSerial, splitComma, splitCommaAux, trimChars, isWS, parseF32, parseDecimal,
      parseExp, splitSign, splitExpSign, hasDotHead, takeDigits, digitsVal, toLowerChars,
      initState, SCREEN_WIDTH, SCREEN_HEIGHT]

/-- Witness for C10 at a concrete input: `"NaN,inf"` is accepted wholesale. -/
theorem decoder_accepts_any_parsed_values_witness :
    readSerial initState (some "NaN,inf".data) =
      { initState with i_angle := F32.nan, i_distance := F32.inf, data_received := true } :=
  decoder_accepts_any_parsed_values.1 initState "NaN,inf".data "NaN".data "inf".data
    F32.nan F32.inf (by decide) (by decide) (by decide)

/-! ## The data-received gate -/

/-- Does this frame's serial input decode successfully? -/
def lineDecodes (line : Option (List Char)) : Bool :=
  match line with
  | none => false
  | some l =>
    match splitComma (trimChars l) with
    | [p0, p1] => (parseF32 p0).isSome && (parseF32 p1).isSome
    | _ => false

/-- The serial read ORs a successful decode into the data-received flag. -/
theorem readSerial_data_received (s : AppState) (line : Option (List Char)) :
    (readSerial s line).data_received = (s.data_received || lineDecodes line) := by
  cases line with
  | none => simp [readSerial, lineDecodes]
  | some l =>
    simp only [readSerial, lineDecodes]
    rcases splitComma (trimChars l) with _ | ⟨p, _ | ⟨q, _ | ⟨r, rest⟩⟩⟩
    · simp
    · simp
    · rcases hp : parseF32 p with _ | a <;> rcases hq : parseF32 q with _ | d <;>
        simp [hp, hq]
    · simp

/-- One frame ORs a successful decode into the data-received flag. -/
theorem frameUpdate_data_received (s : AppState) (inp : FrameInput) :
    (frameUpdate s inp).data_received = (s.data_received || lineDecodes inp.line) := by
  unfold frameUpdate
  rw [readSerial_data_received]
  cases hs : inp.sPressed <;> cases hr : recreatesCanvas inp <;> simp [hs, hr]

/-- Across any run, the flag is the OR of the initial flag and every frame's
decode success. -/
theorem runFrames_data_received (s : AppState) (inps : List FrameInput) :
    (runFrames s inps).data_received =
      (s.data_received || inps.any fun i => lineDecodes i.line) := by
  induction inps generalizing s with
  | nil => simp [runFrames]
  | cons inp rest ih =>
    have h1 : runFrames s (inp :: rest) = runFrames (frameUpdate s inp) rest := rfl
    rw [h1, ih, frameUpdate_data_received]
    simp [Bool.or_assoc]

/-- A sweep segment is drawn exactly when data has been received and the
offset is one of the fan offsets. -/
theorem mem_frameCanvasOps_sweepSeg (s : AppState) (inp : FrameInput) (off : ℚ) :
    CanvasOp.sweepSeg off ∈ frameCanvasOps s inp ↔
      (s.data_received = true ∧ off ∈ sweepOffsets) := by
  unfold frameCanvasOps
  cases hr : recreatesCanvas inp <;> cases hd : s.data_received <;>
    cases hg : detectionGate s.i_distance <;>
      simp [hr, hd, hg, ARC_SCALES, MARKER_ANGLES]

/-- The detection segment is drawn exactly when data has been received and the
detection gate passes. -/
theorem mem_frameCanvasOps_detectSeg (s : AppState) (inp : FrameInput) :
    CanvasOp.detectSeg ∈ frameCanvasOps s inp ↔
      (s.data_received = true ∧ detectionGate s.i_distance = true) := by
  unfold frameCanvasOps
  cases hr : recreatesCanvas inp <;> cases hd : s.data_received <;>
    cases hg : detectionGate s.i_distance <;>
      simp [hr, hd, hg, ARC_SCALES, MARKER_ANGLES]

set_option maxRecDepth 4000 in
/-- The sweep fan offsets, listed: eleven values from −3° to 0° in 0.3° steps. -/
theorem sweepOffsets_eq :
    sweepOffsets =
      [-3, -27/10, -12/5, -21/10, -9/5, -3/2, -6/5, -9/10, -3/5, -3/10, 0] := by
  norm_num [sweepOffsets, sweepOffsetsAux, SWEEP_SPREAD_DEG, SWEEP_STEP_DEG]

/-- C6: sweep and detection drawing occur on a frame iff at least one valid
reading has ever been received: the flag starts false, is set exactly by a
successful decode, and once true can never be reset by any further input. -/
theorem data_received_gates_sweep_permanently :
    initState.data_received = false ∧
    (∀ (s : AppState) (inp : FrameInput),
      (frameUpdate s inp).data_received = (s.data_received || lineDecodes inp.line)) ∧
    (∀ (s : AppState) (inps : List FrameInput),
      (runFrames s inps).data_received =
        (s.data_received || inps.any fun i => lineDecodes i.line)) ∧
    (∀ (s : AppState) (inp : FrameInput),
      ((∃ off, CanvasOp.sweepSeg off ∈ frameCanvasOps s inp) ↔ s.data_received = true) ∧
      (CanvasOp.detectSeg ∈ frameCanvasOps s inp → s.data_received = true)) ∧
    (∀ (s : AppState) (inps : List FrameInput),
      s.data_received = true → (runFrames s inps).data_received = true) := by
  refine ⟨rfl, frameUpdate_data_received, runFrames_data_received, ?_, ?_⟩
  · intro s inp
    constructor
    · constructor
      · rintro ⟨off, hoff⟩
        exact ((mem_frameCanvasOps_sweepSeg s inp off).1 hoff).1
      · intro hd
        refine ⟨0, (mem_frameCanvasOps_sweepSeg s inp 0).2 ⟨hd, ?_⟩⟩
        rw [sweepOffsets_eq]
        simp
    · intro h
      exact ((mem_frameCanvasOps_detectSeg s inp).1 h).1
  · intro s inps h
    rw [runFrames_data_received, h]
    simp

/-- Witness for C6 at a concrete input: once the flag is set, a later frame
with no input at all keeps it set. -/
theorem data_received_gates_sweep_permanently_witness :
    (runFrames ⟨F32.finite 90, F32.finite 20, true, true, 1200, 700⟩
        [⟨false, false, false, 1200, 700, none⟩]).data_received = true :=
  data_received_gates_sweep_permanently.2.2.2.2
    ⟨F32.finite 90, F32.finite 20, true, true, 1200, 700⟩
    [⟨false, false, false, 1200, 700, none⟩] rfl

/-! ## Detection and sweep rendering -/

/-- No sweep segment is the detection segment. -/
theorem count_detect_map_sweep (l : List ℚ) :
    (l.map CanvasOp.sweepSeg).count CanvasOp.detectSeg = 0 := by
  induction l with
  | nil => rfl
  | cons a t ih => simp [List.count_cons, ih]

/-- No arc ring is the detection segment. -/
theorem count_detect_map_arc (l : List ℚ) :
    (l.map CanvasOp.arcRing).count CanvasOp.detectSeg = 0 := by
  induction l with
  | nil => rfl
  | cons a t ih => simp [List.count_cons, ih]

/-- No angle marker is the detection segment. -/
theorem count_detect_map_marker (l : List ℤ) :
    (l.map CanvasOp.angleMarker).count CanvasOp.detectSeg = 0 := by
  induction l with
  | nil => rfl
  | cons a t ih => simp [List.count_cons, ih]

/-- C5: given a reading has been received, a detection segment appears on a
frame iff the current distance lies strictly between 0 and the max range 40;
it is then the unique such segment, drawn from the object position to the
radius edge along the same angle; and an idle frame (no events, no line)
changes no state, so the same holds frame after frame. -/
theorem detection_drawn_iff_distance_in_open_range :
    (∀ q : ℚ, detectionGate (F32.finite q) = true ↔ 0 < q ∧ q < MAX_RANGE_CM) ∧
    (detectionGate F32.nan = false ∧ detectionGate F32.inf = false) ∧
    (∀ (s : AppState) (inp : FrameInput),
      (CanvasOp.detectSeg ∈ frameCanvasOps s inp ↔
        s.data_received = true ∧ detectionGate s.i_distance = true) ∧
      (frameCanvasOps s inp).count CanvasOp.detectSeg =
        (if s.data_received && detectionGate s.i_distance then 1 else 0)) ∧
    (∀ (center : Vec2) (radius a d : ℝ),
      objectPos center radius a d = polarPoint center (d * (radius / (MAX_RANGE_CM : ℝ))) a ∧
      edgePos center radius a = polarPoint center radius a) ∧
    (∀ (s : AppState) (w h : ℤ), frameUpdate s ⟨false, false, false, w, h, none⟩ = s) := by
  refine ⟨?_, ⟨rfl, rfl⟩, ?_, ?_, ?_⟩
  · intro q
    simp [detectionGate, F32.lt, MAX_RANGE_CM]
  · intro s inp
    refine ⟨mem_frameCanvasOps_detectSeg s inp, ?_⟩
    unfold frameCanvasOps
    cases hr : recreatesCanvas inp <;> cases hd : s.data_received <;>
      cases hg : detectionGate s.i_distance <;>
        simp [hr, hd, hg, List.count_append, List.count_cons,
          count_detect_map_sweep, count_detect_map_arc, count_detect_map_marker]
  · intro center radius a d
    exact ⟨rfl, rfl⟩
  · intro s w h
    simp [frameUpdate, recreatesCanvas, readSerial]

/-- C8: on every frame with data received, the sweep fan consists of segments
at offsets stepping from −3° to 0° inclusive in 0.3° increments — eleven of
them, including one at exactly the current angle — each of full radius
length. -/
theorem sweep_fan_offsets :
    sweepOffsets = (List.range 11).map (fun k => -SWEEP_SPREAD_DEG + k * SWEEP_STEP_DEG) ∧
    sweepOffsets.length = 11 ∧
    (0 : ℚ) ∈ sweepOffsets ∧
    (-SWEEP_SPREAD_DEG) ∈ sweepOffsets ∧
    (∀ (s : AppState) (inp : FrameInput) (off : ℚ),
      CanvasOp.sweepSeg off ∈ frameCanvasOps s inp ↔
        (s.data_received = true ∧ off ∈ sweepOffsets)) ∧
    (∀ (center : Vec2) (radius angleDeg : ℝ),
      ((sweepEnd center radius angleDeg).x - center.x) ^ 2 +
          ((sweepEnd center radius angleDeg).y - center.y) ^ 2 = radius ^ 2) := by
  refine ⟨?_, ?_, ?_, ?_, mem_frameCanvasOps_sweepSeg, ?_⟩
  · rw [sweepOffsets_eq]
    norm_num [List.range_succ, SWEEP_SPREAD_DEG, SWEEP_STEP_DEG]
  · rw [sweepOffsets_eq]; rfl
  · rw [sweepOffsets_eq]; simp
  · rw [sweepOffsets_eq]; norm_num [SWEEP_SPREAD_DEG]
  · intro center radius angleDeg
    have h := Real.sin_sq_add_cos_sq (toRadians angleDeg)
    simp only [sweepEnd, polarPoint]
    ring_nf
    linear_combination (radius ^ 2) * h

/-! ## Polar mapping facts -/

/-- Degree-to-radian conversion at 0°. -/
theorem toRadians_zero : toRadians 0 = 0 := by
  simp [toRadians]

/-- Degree-to-radian conversion at 90°. -/
theorem toRadians_ninety : toRadians 90 = Real.pi / 2 := by
  unfold toRadians; ring

/-- Degree-to-radian conversion at 180°. -/
theorem toRadians_one_eighty : toRadians 180 = Real.pi := by
  unfold toRadians; ring

/-- C4: the sweep endpoint at angle `a` is
`(center.x + radius·cos a, center.y − radius·sin a)` and the object position
uses the same formula with `pix_dist = d·(radius/max_range)`; hence at 0° the
point lies on the horizontal ray toward increasing X at `center.y`, at 180°
toward decreasing X, and at 90° directly above `center` at distance `radius`
(resp. `pix_dist`). -/
theorem polar_screen_mapping :
    (∀ (center : Vec2) (radius angleDeg : ℝ),
      sweepEnd center radius angleDeg =
        ⟨center.x + radius * Real.cos (toRadians angleDeg),
          center.y - radius * Real.sin (toRadians angleDeg)⟩) ∧
    (∀ (center : Vec2) (radius angleDeg dist : ℝ),
      objectPos center radius angleDeg dist =
        polarPoint center (dist * (radius / (MAX_RANGE_CM : ℝ))) angleDeg) ∧
    (∀ (center : Vec2) (radius : ℝ),
      sweepEnd center radius 0 = ⟨center.x + radius, center.y⟩ ∧
      sweepEnd center radius 180 = ⟨center.x - radius, center.y⟩ ∧
      sweepEnd center radius 90 = ⟨center.x, center.y - radius⟩) ∧
    (∀ (center : Vec2) (radius dist : ℝ),
      objectPos center radius 0 dist =
        ⟨center.x + dist * (radius / (MAX_RANGE_CM : ℝ)), center.y⟩ ∧
      objectPos center radius 180 dist =
        ⟨center.x - dist * (radius / (MAX_RANGE_CM : ℝ)), center.y⟩ ∧
      objectPos center radius 90 dist =
        ⟨center.x, center.y - dist * (radius / (MAX_RANGE_CM : ℝ))⟩) := by
  refine ⟨fun center radius angleDeg => rfl, fun center radius angleDeg dist => rfl, ?_, ?_⟩
  · intro center radius
    refine ⟨?_, ?_, ?_⟩ <;>
      simp [sweepEnd, polarPoint, toRadians_zero, toRadians_ninety, toRadians_one_eighty,
        Real.cos_pi, Real.sin_pi, Real.cos_pi_div_two, Real.sin_pi_div_two]
    ring
  · intro center radius dist
    refine ⟨?_, ?_, ?_⟩ <;>
      simp [objectPos, polarPoint, pixDist, pixelsPerCm, toRadians_zero, toRadians_ninety,
        toRadians_one_eighty, Real.cos_pi, Real.sin_pi, Real.cos_pi_div_two,
        Real.sin_pi_div_two]
    ring

/-! ## Final composite -/

/-- C9: the final composite samples the whole texture with a negated source
height (vertical flip on the source, not the destination), uses the identical
source and full-screen destination rectangles in the shader-on and shader-off
paths, and runs inside the shader pass exactly when the effect is enabled. -/
theorem composite_source_flipped_only :
    (∀ (s : AppState) (sw sh texW texH : ℚ),
      (finalComposite s sw sh texW texH).srcRect = ⟨0, 0, texW, -texH⟩ ∧
      (finalComposite s sw sh texW texH).destRect = ⟨0, 0, sw, sh⟩ ∧
      (finalComposite s sw sh texW texH).viaShader = s.use_shader) ∧
    (∀ (s s' : AppState) (sw sh texW texH : ℚ),
      (finalComposite s sw sh texW texH).srcRect = (finalComposite s' sw sh texW texH).srcRect ∧
      (finalComposite s sw sh texW texH).destRect =
        (finalComposite s' sw sh texW texH).destRect) ∧
    (∀ (s : AppState) (sw sh texW texH : ℚ), 0 < texH →
      (finalComposite s sw sh texW texH).srcRect.h < 0 ∧
      (finalComposite s sw sh texW texH).destRect.h = sh) := by
  have hbase : ∀ (s : AppState) (sw sh texW texH : ℚ),
      (finalComposite s sw sh texW texH).srcRect = ⟨0, 0, texW, -texH⟩ ∧
      (finalComposite s sw sh texW texH).destRect = ⟨0, 0, sw, sh⟩ ∧
      (finalComposite s sw sh texW texH).viaShader = s.use_shader := by
    intro s sw sh texW texH
    cases hu : s.use_shader <;> simp [finalComposite, hu]
  refine ⟨hbase, ?_, ?_⟩
  · intro s s' sw sh texW texH
    rw [(hbase s sw sh texW texH).1, (hbase s' sw sh texW texH).1,
      (hbase s sw sh texW texH).2.1, (hbase s' sw sh texW texH).2.1]
    exact ⟨rfl, rfl⟩
  · intro s sw sh texW texH h
    rw [(hbase s sw sh texW texH).1, (hbase s sw sh texW texH).2.1]
    exact ⟨neg_lt_zero.2 h, rfl⟩

/-- Witness for C9 at the startup geometry: texture 1200×700 onto a 1200×700
screen has a negative source height and a positive full-screen destination. -/
theorem composite_source_flipped_only_witness :
    (finalComposite initState 1200 700 1200 700).srcRect.h < 0 ∧
      (finalComposite initState 1200 700 1200 700).destRect.h = 700 :=
  composite_source_flipped_only.2.2 initState 1200 700 1200 700 (by norm_num)

/-! ## Viewport tracking -/

/-- The screen dimensions after the last frame of a run (or the initial ones
for an empty run). -/
def lastDims (w h : ℤ) : List FrameInput → ℤ × ℤ
  | [] => (w, h)
  | inp :: rest => lastDims inp.screenW inp.screenH rest

/-- A physically possible input trace starting from dimensions `(w, h)`:
whenever the reported dimensions differ from the previous frame's, the
platform resize event (or the fullscreen key, which itself causes the change)
fires on that frame. -/
def validFrom (w h : ℤ) : List FrameInput → Prop
  | [] => True
  | inp :: rest =>
    (recreatesCanvas inp = true ∨ (inp.screenW = w ∧ inp.screenH = h)) ∧
      validFrom inp.screenW inp.screenH rest

/-- The canvas dimensions after one frame: the reported screen size on a
recreate frame, unchanged otherwise. -/
theorem frameUpdate_canvas (s : AppState) (inp : FrameInput) :
    (frameUpdate s inp).canvasW = (if recreatesCanvas inp then inp.screenW else s.canvasW) ∧
    (frameUpdate s inp).canvasH = (if recreatesCanvas inp then inp.screenH else s.canvasH) := by
  unfold frameUpdate
  cases hr : recreatesCanvas inp <;> cases hs : inp.sPressed <;>
    simp [hr, hs, (readSerial_only_telemetry _ _).2.1, (readSerial_only_telemetry _ _).2.2]

/-- C7: center and radius are recomputed from the live size every frame
(`center.x = width/2`, `center.y = 0.926·height`, `radius = 0.5·width`); a
resize or fullscreen toggle re-creates the canvas at exactly the reported
size and clears it before any draw of that frame; and along any physically
possible trace the canvas dimensions equal the viewport dimensions at every
composite. -/
theorem canvas_matches_viewport :
    (∀ sw : ℝ, radarCenterX sw = sw / 2 ∧ radarRadius sw = 0.5 * sw) ∧
    (∀ sh : ℝ, radarCenterY sh = 0.926 * sh) ∧
    (∀ (s : AppState) (inp : FrameInput), recreatesCanvas inp = true →
      (frameUpdate s inp).canvasW = inp.screenW ∧
      (frameUpdate s inp).canvasH = inp.screenH ∧
      ∃ rest, frameCanvasOps (frameUpdate s inp) inp = CanvasOp.clearBg :: rest) ∧
    (∀ (inps : List FrameInput) (s : AppState), validFrom s.canvasW s.canvasH inps →
      ((runFrames s inps).canvasW, (runFrames s inps).canvasH) =
        lastDims s.canvasW s.canvasH inps) := by
  refine ⟨?_, ?_, ?_, ?_⟩
  · intro sw
    constructor
    · rfl
    · unfold radarRadius; ring
  · intro sh
    unfold radarCenterY; ring
  · intro s inp hr
    refine ⟨?_, ?_, ?_⟩
    · rw [(frameUpdate_canvas s inp).1, if_pos hr]
    · rw [(frameUpdate_canvas s inp).2, if_pos hr]
    · refine Exists.intro (CanvasOp.fadeOverlay inp.screenW (fadeRectH inp.screenH) ::
        (ARC_SCALES.map CanvasOp.arcRing ++ MARKER_ANGLES.map CanvasOp.angleMarker ++
          (if (frameUpdate s inp).data_received then
            sweepOffsets.map CanvasOp.sweepSeg ++
              (if detectionGate (frameUpdate s inp).i_distance then [CanvasOp.detectSeg]
                else [])
          else []))) ?_
      unfold frameCanvasOps
      rw [if_pos hr]
      rfl
  · intro inps
    induction inps with
    | nil => intro s _; rfl
    | cons inp rest ih =>
      intro s hv
      obtain ⟨hd, tl⟩ := hv
      have hW : (frameUpdate s inp).canvasW = inp.screenW := by
        rw [(frameUpdate_canvas s inp).1]
        rcases hd with hd | ⟨hw, hh⟩
        · rw [if_pos hd]
        · cases hr : recreatesCanvas inp
          · rw [if_neg (by simp [hr]), hw]
          · simp
      have hH : (frameUpdate s inp).canvasH = inp.screenH := by
        rw [(frameUpdate_canvas s inp).2]
        rcases hd with hd | ⟨hw, hh⟩
        · rw [if_pos hd]
        · cases hr : recreatesCanvas inp
          · rw [if_neg (by simp [hr]), hh]
          · simp
      have hrun : runFrames s (inp :: rest) = runFrames (frameUpdate s inp) rest := rfl
      have hlast : lastDims s.canvasW s.canvasH (inp :: rest) =
          lastDims inp.screenW inp.screenH rest := rfl
      rw [hrun, hlast, ← hW, ← hH]
      exact ih (frameUpdate s inp) (by rw [hW, hH]; exact tl)

/-- Witness for C7 at a concrete trace: a single resize frame to 800×600
leaves the canvas at exactly 800×600. -/
theorem canvas_matches_viewport_witness :
    ((runFrames initState [⟨false, false, true, 800, 600, none⟩]).canvasW,
        (runFrames initState [⟨false, false, true, 800, 600, none⟩]).canvasH) =
      (800, 600) :=
  canvas_matches_viewport.2.2.2 [⟨false, false, true, 800, 600, none⟩] initState
    ⟨Or.inl rfl, trivial⟩

/-! ## Persistence fade: decay target and covered region -/

/-- Alpha blending keeps a channel between the source value and the previous
value whenever it starts at or above the source value. -/
theorem fadeChannel_between (src dst : ℚ) (h : src ≤ dst) :
    src ≤ fadeChannel src dst ∧ fadeChannel src dst ≤ dst := by
  unfold fadeChannel FADE_ALPHA
  constructor <;> nlinarith

/-- Closed form of `n` fade frames on a pixel: each channel's deviation from
the fade color is scaled by `(1 − 18/255)ⁿ = (237/255)ⁿ`. -/
theorem fadePixel_iterate (c : Rgb) (n : ℕ) :
    fadePixel^[n] c =
      ⟨fadeRgb.r + (237/255 : ℚ) ^ n * (c.r - fadeRgb.r),
        fadeRgb.g + (237/255 : ℚ) ^ n * (c.g - fadeRgb.g),
        fadeRgb.b + (237/255 : ℚ) ^ n * (c.b - fadeRgb.b)⟩ := by
  induction n with
  | zero => cases c; norm_num [fadeRgb, FADE_ANIMATION_COLOR]
  | succ n ih =>
    rw [Function.iterate_succ_apply', ih]
    simp only [fadePixel, fadeChannel, FADE_ALPHA, fadeRgb, FADE_ANIMATION_COLOR,
      Rgb.mk.injEq]
    refine ⟨?_, ?_, ?_⟩ <;> push_cast <;> ring

/-- Counterexample to C2: the background color is not even a fixed point of
the decay — one fade frame pulls a background-colored pixel's red channel
strictly below the background's red, away from it, so the canvas cannot
converge to exactly the background color. -/
theorem background_not_fixed_under_fade :
    fadePixel bgRgb ≠ bgRgb ∧ (fadePixel bgRgb).r < bgRgb.r := by
  constructor
  · intro h
    have hr := congrArg Rgb.r h
    simp only [fadePixel, fadeChannel, FADE_ALPHA, bgRgb, FADE_ANIMATION_COLOR,
      BACKGROUND_COLOR] at hr
    norm_num at hr
  · simp only [fadePixel, fadeChannel, FADE_ALPHA, bgRgb, FADE_ANIMATION_COLOR,
      BACKGROUND_COLOR]
    norm_num

/-- C2 (amended): with no new draws, each overlay-covered pixel channel at or
above the fade color moves monotonically toward the fade color's RGB
`(0, 10, 0)` — never brightening — with its deviation scaled by `237/255`
each frame, and converges in the limit to the fade color, not to the
background color `(10, 15, 10)`. -/
theorem fade_converges_to_fade_color :
    (∀ (c : Rgb) (n : ℕ),
      (fadePixel^[n] c).r = fadeRgb.r + (237/255 : ℚ) ^ n * (c.r - fadeRgb.r) ∧
      (fadePixel^[n] c).g = fadeRgb.g + (237/255 : ℚ) ^ n * (c.g - fadeRgb.g) ∧
      (fadePixel^[n] c).b = fadeRgb.b + (237/255 : ℚ) ^ n * (c.b - fadeRgb.b)) ∧
    (∀ c : Rgb, fadeRgb.r ≤ c.r → fadeRgb.g ≤ c.g → fadeRgb.b ≤ c.b →
      ((fadePixel c).r ≤ c.r ∧ (fadePixel c).g ≤ c.g ∧ (fadePixel c).b ≤ c.b) ∧
      (fadeRgb.r ≤ (fadePixel c).r ∧ fadeRgb.g ≤ (fadePixel c).g ∧
        fadeRgb.b ≤ (fadePixel c).b)) ∧
    (∀ c : Rgb,
      Filter.Tendsto (fun n => ((fadePixel^[n] c).r : ℝ)) Filter.atTop
        (nhds (fadeRgb.r : ℝ)) ∧
      Filter.Tendsto (fun n => ((fadePixel^[n] c).g : ℝ)) Filter.atTop
        (nhds (fadeRgb.g : ℝ)) ∧
      Filter.Tendsto (fun n => ((fadePixel^[n] c).b : ℝ)) Filter.atTop
        (nhds (fadeRgb.b : ℝ))) := by
  have hformula : ∀ (c : Rgb) (n : ℕ),
      (fadePixel^[n] c).r = fadeRgb.r + (237/255 : ℚ) ^ n * (c.r - fadeRgb.r) ∧
      (fadePixel^[n] c).g = fadeRgb.g + (237/255 : ℚ) ^ n * (c.g - fadeRgb.g) ∧
      (fadePixel^[n] c).b = fadeRgb.b + (237/255 : ℚ) ^ n * (c.b - fadeRgb.b) := by
    intro c n
    rw [fadePixel_iterate]
    exact ⟨rfl, rfl, rfl⟩
  refine ⟨hformula, ?_, ?_⟩
  · intro c hrr hgg hbb
    have h1 := fadeChannel_between (FADE_ANIMATION_COLOR.r : ℚ) c.r hrr
    have h2 := fadeChannel_between (FADE_ANIMATION_COLOR.g : ℚ) c.g hgg
    have h3 := fadeChannel_between (FADE_ANIMATION_COLOR.b : ℚ) c.b hbb
    exact ⟨⟨h1.2, h2.2, h3.2⟩, ⟨h1.1, h2.1, h3.1⟩⟩
  · intro c
    have hpow : Filter.Tendsto (fun n : ℕ => (237/255 : ℝ) ^ n) Filter.atTop (nhds 0) :=
      tendsto_pow_atTop_nhds_zero_of_lt_one (by norm_num) (by norm_num)
    have key : ∀ l d : ℝ,
        Filter.Tendsto (fun n : ℕ => l + (237/255 : ℝ) ^ n * d) Filter.atTop (nhds l) := by
      intro l d
      simpa using (hpow.mul_const d).const_add l
    refine ⟨?_, ?_, ?_⟩
    · refine (key (fadeRgb.r : ℝ) ((c.r : ℝ) - (fadeRgb.r : ℝ))).congr fun n => ?_
      rw [(hformula c n).1]; push_cast; ring
    · refine (key (fadeRgb.g : ℝ) ((c.g : ℝ) - (fadeRgb.g : ℝ))).congr fun n => ?_
      rw [(hformula c n).2.1]; push_cast; ring
    · refine (key (fadeRgb.b : ℝ) ((c.b : ℝ) - (fadeRgb.b : ℝ))).congr fun n => ?_
      rw [(hformula c n).2.2]; push_cast; ring

/-- Witness for C2 (amended) at a concrete pixel: a full-white pixel dims and
stays at or above the fade color after one frame. -/
theorem fade_converges_to_fade_color_witness :
    ((fadePixel ⟨255, 255, 255⟩).r ≤ (255 : ℚ) ∧ (fadePixel ⟨255, 255, 255⟩).g ≤ (255 : ℚ) ∧
        (fadePixel ⟨255, 255, 255⟩).b ≤ (255 : ℚ)) ∧
      (fadeRgb.r ≤ (fadePixel ⟨255, 255, 255⟩).r ∧ fadeRgb.g ≤ (fadePixel ⟨255, 255, 255⟩).g ∧
        fadeRgb.b ≤ (fadePixel ⟨255, 255, 255⟩).b) :=
  fade_converges_to_fade_color.2.1 ⟨255, 255, 255⟩
    (by norm_num [fadeRgb, FADE_ANIMATION_COLOR])
    (by norm_num [fadeRgb, FADE_ANIMATION_COLOR])
    (by norm_num [fadeRgb, FADE_ANIMATION_COLOR])

/-- Counterexample to C3: at the startup size 1200×700 the fade rectangle is
648 rows tall, so the in-canvas pixel `(600, 699)` is never overlaid by the
decay step. -/
theorem fade_overlay_misses_bottom_rows :
    fadeRectH 700 = 648 ∧ ¬ fadeCovers 1200 700 600 699 ∧
      (0 ≤ (600 : ℤ) ∧ 600 < 1200 ∧ 0 ≤ (699 : ℤ) ∧ 699 < 700) := by
  have h : fadeRectH 700 = 648 := by norm_num [fadeRectH]
  refine ⟨h, ?_, by norm_num⟩
  rw [fadeCovers, h]
  norm_num

/-- C3 (amended): on every frame, before any new draws, the decay overlay is
drawn — but it covers exactly the pixels with `0 ≤ x < width` and
`0 ≤ y < ⌊0.926·height⌋`, leaving a nonempty bottom strip of the canvas
undimmed whenever the height is positive. -/
theorem fade_overlay_covers_top_region_only :
    (∀ (s : AppState) (inp : FrameInput), ∃ rest,
      frameCanvasOps s inp =
        (if recreatesCanvas inp then [CanvasOp.clearBg] else []) ++
          CanvasOp.fadeOverlay inp.screenW (fadeRectH inp.screenH) :: rest) ∧
    (∀ sw sh x y : ℤ, 0 ≤ x → x < sw → 0 ≤ y → y < fadeRectH sh →
      fadeCovers sw sh x y) ∧
    (∀ sh : ℤ, 0 < sh → fadeRectH sh < sh) ∧
    (∀ sw sh x y : ℤ, fadeRectH sh ≤ y → ¬ fadeCovers sw sh x y) := by
  refine ⟨?_, ?_, ?_, ?_⟩
  · intro s inp
    exact ⟨_, rfl⟩
  · intro sw sh x y h1 h2 h3 h4
    exact ⟨h1, h2, h3, h4⟩
  · intro sh h
    have hq : (0 : ℚ) < (sh : ℚ) := by exact_mod_cast h
    have : (sh : ℚ) * 0.926 < (sh : ℚ) := by nlinarith
    calc fadeRectH sh = ⌊(sh : ℚ) * 0.926⌋ := rfl
      _ < sh := by
        rw [Int.floor_lt]
        exact_mod_cast this
  · intro sw sh x y h hc
    exact absurd hc.2.2.2 (not_lt.2 h)

/-- Witness for C3 (amended) at the startup size: pixel `(0, 0)` is covered
and the fade rectangle stops short of the canvas bottom. -/
theorem fade_overlay_covers_top_region_only_witness :
    fadeCovers 1200 700 0 0 ∧ fadeRectH 700 < 700 :=
  ⟨fade_overlay_covers_top_region_only.2.1 1200 700 0 0 (by norm_num) (by norm_num)
      (by norm_num) (by norm_num [fadeRectH]),
    fade_overlay_covers_top_region_only.2.2.1 700 (by norm_num)⟩

end Radar
